import Mathlib

/-!
# Verification of txt2sub's `clash_generator` module

A shallow embedding of `src/clash_generator.rs` (the parse → model → render
pipeline of the txt2sub repository) together with theorems settling the frozen
claims about it.

Conventions of the embedding:
* Rust `u16`/`u32` ports and counters become `Nat` with explicit bounds checks
  where the source parses them.
* Fallible Rust code returning `Option`/`Result` becomes Lean `Option`/`Except`.
* Byte strings are `List Nat` (each entry < 256); text is `String`, manipulated
  through its underlying `List Char` so everything reduces structurally.
* Third-party library functions used by the source (`url::Url`, the `base64`
  STANDARD engine, `String::from_utf8`, `serde_json`, `serde_yaml` values) are
  modelled explicitly below, restricted to the behaviour the module exercises.
-/

namespace Txt2Sub

/-! ## Character-level helpers -/

/-- `p.data.isPrefixOf s.data`: models Rust `str::starts_with`. -/
def strStarts (p s : String) : Bool := p.data.isPrefixOf s.data

/-- Strip leading occurrences of the pattern `p`, fuelled by the input length.
Models Rust `str::trim_start_matches`, which removes every successive
occurrence of the pattern. -/
def stripAllAux : Nat → List Char → List Char → List Char
  | 0, _, s => s
  | Nat.succ fuel, p, s =>
    if p ≠ [] ∧ p.isPrefixOf s then stripAllAux fuel p (s.drop p.length) else s

/-- Rust `str::trim_start_matches` on whole strings. -/
def trimStartMatches (p s : String) : String :=
  ⟨stripAllAux s.data.length p.data s.data⟩

/-- Split at the first occurrence of `c`: `some (before, after)`, neither part
containing that occurrence. Models Rust `str::find` + slicing. -/
def splitFirstChar (c : Char) : List Char → Option (List Char × List Char)
  | [] => none
  | x :: xs =>
    if x = c then some ([], xs)
    else (splitFirstChar c xs).map (fun r => (x :: r.1, r.2))

/-- Split at the last occurrence of `c`. Models Rust `str::rfind` + slicing. -/
def splitLastChar (c : Char) (s : List Char) : Option (List Char × List Char) :=
  match splitFirstChar c s.reverse with
  | some (a, b) => some (b.reverse, a.reverse)
  | none => none

/-- Split on every occurrence of `c` (Rust `str::split(c)`). -/
def splitOnCharAux (c : Char) : List Char → List Char → List (List Char)
  | [], acc => [acc.reverse]
  | x :: xs, acc =>
    if x = c then acc.reverse :: splitOnCharAux c xs []
    else splitOnCharAux c xs (x :: acc)

def splitOnChar (c : Char) (s : List Char) : List (List Char) :=
  splitOnCharAux c s []

/-- Rust `str::splitn(2, c)`: at most two pieces, split at the first `c`. -/
def splitN2 (c : Char) (s : List Char) : List (List Char) :=
  match splitFirstChar c s with
  | some (a, b) => [a, b]
  | none => [s]

/-- ASCII whitespace test (the whitespace the module's inputs exercise). -/
def isWsChar (ch : Char) : Bool :=
  ch = ' ' || ch = '\t' || ch = '\r' || ch = '\n'

/-- Rust `str::trim` (restricted to ASCII whitespace). -/
def trimChars (s : List Char) : List Char :=
  ((s.dropWhile isWsChar).reverse.dropWhile isWsChar).reverse

/-- ASCII lowercasing of one character (Rust `str::to_lowercase`, restricted to
the ASCII keys the module compares). -/
def lowerChar (ch : Char) : Char :=
  if 'A' ≤ ch ∧ ch ≤ 'Z' then Char.ofNat (ch.toNat + 32) else ch

def lowerStr (s : String) : String := ⟨s.data.map lowerChar⟩

def digitVal (ch : Char) : Option Nat :=
  if '0' ≤ ch ∧ ch ≤ '9' then some (ch.toNat - 48) else none

/-- Digits-only numeral: `none` on empty input or any non-digit. -/
def digitsToNat : List Char → Option Nat
  | [] => none
  | ds => ds.foldl (fun acc ch =>
      match acc, digitVal ch with
      | some n, some d => some (n * 10 + d)
      | _, _ => none) (some 0)

/-- Rust `str::parse::<uN>`: optional leading `+`, one or more digits, bounded.
Overflow and any other character fail. -/
def parseNatLe (bound : Nat) (s : List Char) : Option Nat :=
  let ds := match s with
    | '+' :: rest => rest
    | other => other
  match digitsToNat ds with
  | some n => if n ≤ bound then some n else none
  | none => none

def parseU16 (s : String) : Option Nat := parseNatLe 65535 s.data

def parseU32 (s : String) : Option Nat := parseNatLe 4294967295 s.data

def hexVal (ch : Char) : Option Nat :=
  if '0' ≤ ch ∧ ch ≤ '9' then some (ch.toNat - 48)
  else if 'a' ≤ ch ∧ ch ≤ 'f' then some (ch.toNat - 87)
  else if 'A' ≤ ch ∧ ch ≤ 'F' then some (ch.toNat - 55)
  else none

/-! ## UTF-8 (model of `String::from_utf8` and the lossy form) -/

/-- UTF-8 encoding of a single scalar value. -/
def utf8EncodeChar (ch : Char) : List Nat :=
  let n := ch.toNat
  if n < 128 then [n]
  else if n < 2048 then [192 + n / 64, 128 + n % 64]
  else if n < 65536 then [224 + n / 4096, 128 + (n / 64) % 64, 128 + n % 64]
  else [240 + n / 262144, 128 + (n / 4096) % 64, 128 + (n / 64) % 64, 128 + n % 64]

def isCont (b : Nat) : Bool := 128 ≤ b && b < 192

/-- Strict UTF-8 decoding, fuelled by the byte count; rejects overlong forms
and surrogates, as `String::from_utf8` does. -/
def utf8DecodeAux : Nat → List Nat → Option (List Char)
  | _, [] => some []
  | 0, _ :: _ => none
  | Nat.succ fuel, b :: bs =>
    if b < 128 then (utf8DecodeAux fuel bs).map (Char.ofNat b :: ·)
    else if b < 194 then none
    else if b < 224 then
      match bs with
      | b2 :: bs2 =>
        if isCont b2 then
          (utf8DecodeAux fuel bs2).map (Char.ofNat ((b - 192) * 64 + (b2 - 128)) :: ·)
        else none
      | [] => none
    else if b < 240 then
      match bs with
      | b2 :: b3 :: bs3 =>
        let n := (b - 224) * 4096 + (b2 - 128) * 64 + (b3 - 128)
        if isCont b2 && isCont b3 && decide (2048 ≤ n) &&
            !(decide (55296 ≤ n) && decide (n < 57344)) then
          (utf8DecodeAux fuel bs3).map (Char.ofNat n :: ·)
        else none
      | _ => none
    else if b < 245 then
      match bs with
      | b2 :: b3 :: b4 :: bs4 =>
        let n := (b - 240) * 262144 + (b2 - 128) * 4096 + (b3 - 128) * 64 + (b4 - 128)
        if isCont b2 && isCont b3 && isCont b4 &&
            decide (65536 ≤ n) && decide (n < 1114112) then
          (utf8DecodeAux fuel bs4).map (Char.ofNat n :: ·)
        else none
      | _ => none
    else none

/-- `String::from_utf8`. -/
def utf8Decode (bs : List Nat) : Option String :=
  (utf8DecodeAux bs.length bs).map (fun cs => ⟨cs⟩)

/-- Lossy UTF-8 decoding: an invalid position yields U+FFFD and skips one byte
(adequate for the form-urlencoded values the module reads). -/
def utf8DecodeLossyAux : Nat → List Nat → List Char
  | _, [] => []
  | 0, _ :: _ => []
  | Nat.succ fuel, b :: bs =>
    if b < 128 then Char.ofNat b :: utf8DecodeLossyAux fuel bs
    else if 194 ≤ b ∧ b < 224 then
      match bs with
      | b2 :: bs2 =>
        if isCont b2 then Char.ofNat ((b - 192) * 64 + (b2 - 128)) :: utf8DecodeLossyAux fuel bs2
        else Char.ofNat 65533 :: utf8DecodeLossyAux fuel bs
      | [] => [Char.ofNat 65533]
    else if 224 ≤ b ∧ b < 240 then
      match bs with
      | b2 :: b3 :: bs3 =>
        let n := (b - 224) * 4096 + (b2 - 128) * 64 + (b3 - 128)
        if isCont b2 && isCont b3 && decide (2048 ≤ n) &&
            !(decide (55296 ≤ n) && decide (n < 57344)) then
          Char.ofNat n :: utf8DecodeLossyAux fuel bs3
        else Char.ofNat 65533 :: utf8DecodeLossyAux fuel bs
      | _ => Char.ofNat 65533 :: utf8DecodeLossyAux fuel bs
    else if 240 ≤ b ∧ b < 245 then
      match bs with
      | b2 :: b3 :: b4 :: bs4 =>
        let n := (b - 240) * 262144 + (b2 - 128) * 4096 + (b3 - 128) * 64 + (b4 - 128)
        if isCont b2 && isCont b3 && isCont b4 &&
            decide (65536 ≤ n) && decide (n < 1114112) then
          Char.ofNat n :: utf8DecodeLossyAux fuel bs4
        else Char.ofNat 65533 :: utf8DecodeLossyAux fuel bs
      | _ => Char.ofNat 65533 :: utf8DecodeLossyAux fuel bs
    else Char.ofNat 65533 :: utf8DecodeLossyAux fuel bs

def utf8DecodeLossy (bs : List Nat) : List Char :=
  utf8DecodeLossyAux bs.length bs

/-! ## Base64 (model of the `base64` crate's STANDARD engine) -/

def b64Val (ch : Char) : Option Nat :=
  if 'A' ≤ ch ∧ ch ≤ 'Z' then some (ch.toNat - 65)
  else if 'a' ≤ ch ∧ ch ≤ 'z' then some (ch.toNat - 71)
  else if '0' ≤ ch ∧ ch ≤ '9' then some (ch.toNat + 4)
  else if ch = '+' then some 62
  else if ch = '/' then some 63
  else none

/-- Canonical padded base64 decoding in four-character groups; padding is
required and unused trailing bits must be zero, as the STANDARD engine
enforces. -/
def b64DecodeAux : List Char → Option (List Nat)
  | [] => some []
  | c1 :: c2 :: c3 :: c4 :: rest =>
    match b64Val c1, b64Val c2 with
    | some v1, some v2 =>
      if c3 = '=' then
        if c4 = '=' ∧ rest = [] ∧ v2 % 16 = 0 then some [v1 * 4 + v2 / 16] else none
      else
        match b64Val c3 with
        | some v3 =>
          if c4 = '=' then
            if rest = [] ∧ v3 % 4 = 0 then
              some [v1 * 4 + v2 / 16, (v2 % 16) * 16 + v3 / 4]
            else none
          else
            match b64Val c4, b64DecodeAux rest with
            | some v4, some tail =>
              some ((v1 * 4 + v2 / 16) :: ((v2 % 16) * 16 + v3 / 4) :: ((v3 % 4) * 64 + v4) :: tail)
            | _, _ => none
        | none => none
    | _, _ => none
  | _ => none

/-- `general_purpose::STANDARD.decode`. -/
def base64Decode (s : String) : Option (List Nat) := b64DecodeAux s.data

/-! ## Form-urlencoded decoding (model of `Url::query_pairs`) -/

/-- Byte stream of a form-urlencoded component: `%XX` becomes the byte `XX`
(an invalid escape stays literal), `+` becomes a space, every other character
contributes its UTF-8 bytes. -/
def formDecodeBytes : List Char → List Nat
  | [] => []
  | '%' :: c1 :: c2 :: rest =>
    match hexVal c1, hexVal c2 with
    | some h1, some h2 => (h1 * 16 + h2) :: formDecodeBytes rest
    | _, _ => utf8EncodeChar '%' ++ formDecodeBytes (c1 :: c2 :: rest)
  | '+' :: rest => 32 :: formDecodeBytes rest
  | ch :: rest => utf8EncodeChar ch ++ formDecodeBytes rest

/-- Percent-decoding of one query key or value, lossy at the text level. -/
def formDecode (s : List Char) : String := ⟨utf8DecodeLossy (formDecodeBytes s)⟩

/-- Query string → decoded `(key, value)` pairs, in order; empty `&`-segments
yield no pair, a segment without `=` yields an empty value. -/
def parseQueryPairs (q : List Char) : List (String × String) :=
  (splitOnChar '&' q).filterMap (fun seg =>
    if seg = [] then none
    else match splitFirstChar '=' seg with
      | some (k, v) => some (formDecode k, formDecode v)
      | none => some (formDecode seg, ""))

/-! ## URL model (the slice of `url::Url` the decoders consume) -/

/-- The observable parts of a parsed URL that `clash_generator.rs` reads:
`username` is the raw text before the first `:` of the userinfo, `host`
retains IPv6 brackets (as `Url::host_str` does), `fragment` is the raw text
after the first `#`. -/
structure UrlParts where
  scheme : String
  username : String
  host : Option String
  port : Option Nat
  query : List (String × String)
  fragment : Option String
deriving Repr, DecidableEq

/-- Locate the `://` separating scheme from authority. -/
def splitScheme : List Char → Option (List Char × List Char)
  | [] => none
  | ':' :: '/' :: '/' :: rest => some ([], rest)
  | ch :: rest => (splitScheme rest).map (fun r => (ch :: r.1, r.2))

/-- Model of `Url::parse` for `scheme://[userinfo@]host[:port][/path][?query][#fragment]`
links (the only shape the decoders feed it); an out-of-range or non-numeric
port is a parse error, as in the `url` crate. -/
def urlParse (link : String) : Option UrlParts := do
  let (scheme, rest) ← splitScheme link.data
  if scheme = [] then none else
  let (beforeFrag, fragment) := match splitFirstChar '#' rest with
    | some (a, b) => (a, some (String.mk b))
    | none => (rest, none)
  let (beforeQuery, queryStr) := match splitFirstChar '?' beforeFrag with
    | some (a, b) => (a, b)
    | none => (beforeFrag, [])
  let authority := beforeQuery.takeWhile (fun ch => ch ≠ '/')
  let (userinfo, hostport) := match splitLastChar '@' authority with
    | some (u, hp) => (u, hp)
    | none => ([], authority)
  let username : String := match splitFirstChar ':' userinfo with
    | some (u, _) => ⟨u⟩
    | none => ⟨userinfo⟩
  let (host, portStr) ← (
    match hostport with
    | '[' :: tail =>
        match splitFirstChar ']' tail with
        | some (inner, restChars) =>
            match restChars with
            | [] => some (('[' :: inner) ++ [']'], ([] : List Char))
            | ':' :: p => some (('[' :: inner) ++ [']'], p)
            | _ => none
        | none => none
    | _ =>
        match splitLastChar ':' hostport with
        | some (h, p) => some (h, p)
        | none => some (hostport, [])
    : Option (List Char × List Char))
  let port : Option (Option Nat) :=
    if portStr = [] then some none
    else match digitsToNat portStr with
      | some n => if n ≤ 65535 then some (some n) else none
      | none => none
  let port ← port
  some { scheme := ⟨scheme⟩, username, host := some ⟨host⟩, port,
         query := parseQueryPairs queryStr, fragment }

/-- `HashMap`-collect lookup over query pairs: the last binding of a repeated
key wins, as when collecting into a Rust `HashMap`. -/
def qget (q : List (String × String)) (k : String) : Option String :=
  ((q.filter (fun p => p.1 = k)).getLast?).map (fun p => p.2)

/-! ## JSON model (the slice of `serde_json` the vmess decoder consumes) -/

/-- JSON values; numbers are restricted to integers, the only numeric shape
the module's inputs carry. -/
inductive Json where
  | null
  | bool (b : Bool)
  | num (n : Int)
  | str (s : String)
  | arr (xs : List Json)
  | obj (kvs : List (String × Json))
deriving Repr, Inhabited

/-- Object key lookup; the parser below keeps only the last binding of a
duplicated key, as `serde_json`'s map insertion does, so a first-match lookup
suffices. -/
def jLookup (k : String) : List (String × Json) → Option Json
  | [] => none
  | (k', v) :: rest => if k' = k then some v else jLookup k rest

/-- `Value::index` on a string key: `Null` for non-objects/missing keys. -/
def Json.index (j : Json) (k : String) : Json :=
  match j with
  | .obj kvs => (jLookup k kvs).getD .null
  | _ => .null

/-- `Value::as_str`. -/
def Json.asStr : Json → Option String
  | .str s => some s
  | _ => none

def skipWs (s : List Char) : List Char :=
  s.dropWhile (fun ch => ch = ' ' || ch = '\t' || ch = '\n' || ch = '\r')

/-- JSON string body after the opening quote: returns the content and the
remainder after the closing quote. Escapes are the JSON simple escapes and
non-surrogate `\uXXXX`; unescaped control characters are rejected, as in
`serde_json`. -/
def parseStrChars : Nat → List Char → Option (List Char × List Char)
  | 0, _ => none
  | _, [] => none
  | Nat.succ fuel, ch :: rest =>
    if ch = '"' then some ([], rest)
    else if ch = '\\' then
      match rest with
      | '"' :: r => (parseStrChars fuel r).map (fun p => ('"' :: p.1, p.2))
      | '\\' :: r => (parseStrChars fuel r).map (fun p => ('\\' :: p.1, p.2))
      | '/' :: r => (parseStrChars fuel r).map (fun p => ('/' :: p.1, p.2))
      | 'b' :: r => (parseStrChars fuel r).map (fun p => (Char.ofNat 8 :: p.1, p.2))
      | 'f' :: r => (parseStrChars fuel r).map (fun p => (Char.ofNat 12 :: p.1, p.2))
      | 'n' :: r => (parseStrChars fuel r).map (fun p => ('\n' :: p.1, p.2))
      | 'r' :: r => (parseStrChars fuel r).map (fun p => ('\r' :: p.1, p.2))
      | 't' :: r => (parseStrChars fuel r).map (fun p => ('\t' :: p.1, p.2))
      | 'u' :: h1 :: h2 :: h3 :: h4 :: r =>
        (match hexVal h1, hexVal h2, hexVal h3, hexVal h4 with
         | some a, some b, some c, some d =>
           let n := ((a * 16 + b) * 16 + c) * 16 + d
           if 55296 ≤ n ∧ n < 57344 then none
           else (parseStrChars fuel r).map (fun p => (Char.ofNat n :: p.1, p.2))
         | _, _, _, _ => none)
      | _ => none
    else if ch.toNat < 32 then none
    else (parseStrChars fuel rest).map (fun p => (ch :: p.1, p.2))

/-- Integer JSON numbers (no leading zeros, no fraction/exponent — the only
numeric shape the module's inputs exercise). -/
def parseJsonNum (s : List Char) : Option (Int × List Char) :=
  let (neg, s1) := match s with
    | '-' :: r => (true, r)
    | other => (false, other)
  let digits := s1.takeWhile (fun ch => decide ('0' ≤ ch ∧ ch ≤ '9'))
  let rest := s1.drop digits.length
  if digits = [] then none
  else if digits.length > 1 ∧ digits.headI = '0' then none
  else match rest with
    | '.' :: _ => none
    | 'e' :: _ => none
    | 'E' :: _ => none
    | _ => (digitsToNat digits).map
        (fun n => ((if neg then -(n : Int) else (n : Int)), rest))

mutual

/-- Fuelled recursive-descent JSON value parser (model of `serde_json::from_str`). -/
def parseJsonVal : Nat → List Char → Option (Json × List Char)
  | 0, _ => none
  | Nat.succ fuel, s =>
    match skipWs s with
    | 'n' :: 'u' :: 'l' :: 'l' :: rest => some (.null, rest)
    | 't' :: 'r' :: 'u' :: 'e' :: rest => some (.bool true, rest)
    | 'f' :: 'a' :: 'l' :: 's' :: 'e' :: rest => some (.bool false, rest)
    | '"' :: rest => (parseStrChars rest.length rest).map (fun r => (.str ⟨r.1⟩, r.2))
    | '[' :: rest =>
      (match skipWs rest with
       | ']' :: rest2 => some (.arr [], rest2)
       | other => (parseJsonItems fuel other).map (fun r => (.arr r.1, r.2)))
    | '{' :: rest =>
      (match skipWs rest with
       | '}' :: rest2 => some (.obj [], rest2)
       | other => (parseJsonMembers fuel other).map (fun r => (.obj r.1, r.2)))
    | other => (parseJsonNum other).map (fun r => (.num r.1, r.2))

/-- Comma-separated array items up to the closing bracket. -/
def parseJsonItems : Nat → List Char → Option (List Json × List Char)
  | 0, _ => none
  | Nat.succ fuel, s => do
    let (v, rest) ← parseJsonVal fuel s
    match skipWs rest with
    | ',' :: rest2 => (parseJsonItems fuel rest2).map (fun r => (v :: r.1, r.2))
    | ']' :: rest2 => some ([v], rest2)
    | _ => none

/-- Comma-separated object members up to the closing brace; on a duplicated
key the later binding wins, matching `serde_json` map insertion. -/
def parseJsonMembers : Nat → List Char → Option (List (String × Json) × List Char)
  | 0, _ => none
  | Nat.succ fuel, s =>
    match skipWs s with
    | '"' :: rest => do
      let (kcs, rest1) ← parseStrChars rest.length rest
      match skipWs rest1 with
      | ':' :: rest2 => do
        let (v, rest3) ← parseJsonVal fuel rest2
        match skipWs rest3 with
        | ',' :: rest4 =>
          (parseJsonMembers fuel rest4).map (fun r =>
            ((if (jLookup ⟨kcs⟩ r.1).isSome then r.1 else (⟨kcs⟩, v) :: r.1), r.2))
        | '}' :: rest4 => some ([(⟨kcs⟩, v)], rest4)
        | _ => none
      | _ => none
    | _ => none

end

/-- `serde_json::from_str::<Value>`: a complete value with only trailing
whitespace. -/
def jsonParse (s : String) : Option Json :=
  match parseJsonVal (2 * s.data.length + 2) s.data with
  | some (j, rest) => if skipWs rest = [] then some j else none
  | none => none

/-! ## Proxy model (the structs of `clash_generator.rs`)

Rust `HashMap<String, String>` fields become association lists (the module
only ever stores at most one `Host` entry); `u16`/`u32` become `Nat`. -/

structure RealityOpts where
  public_key : String
  short_id : String
deriving Repr, DecidableEq

structure WsOpts where
  path : String
  headers : Option (List (String × String))
deriving Repr, DecidableEq

structure GrpcOpts where
  grpc_service_name : String
deriving Repr, DecidableEq

structure VlessProxy where
  name : String
  server : String
  port : Nat
  uuid : String
  flow : Option String
  udp : Option Bool
  tls : Option Bool
  skip_cert_verify : Option Bool
  servername : Option String
  network : Option String
  client_fingerprint : Option String
  reality_opts : Option RealityOpts
  ws_opts : Option WsOpts
  grpc_opts : Option GrpcOpts
deriving Repr, DecidableEq

structure VmessProxy where
  name : String
  server : String
  port : Nat
  uuid : String
  alter_id : Nat
  cipher : String
  udp : Option Bool
  tls : Option Bool
  skip_cert_verify : Option Bool
  servername : Option String
  network : Option String
  ws_opts : Option WsOpts
deriving Repr, DecidableEq

structure Hysteria2Proxy where
  name : String
  server : String
  port : Nat
  password : String
  sni : Option String
  skip_cert_verify : Option Bool
  obfs : Option String
  obfs_password : Option String
deriving Repr, DecidableEq

structure TrojanProxy where
  name : String
  server : String
  port : Nat
  password : String
  udp : Option Bool
  tls : Option Bool
  skip_cert_verify : Option Bool
  servername : Option String
  network : Option String
  client_fingerprint : Option String
  flow : Option String
  reality_opts : Option RealityOpts
deriving Repr, DecidableEq

structure ShadowsocksProxy where
  name : String
  server : String
  port : Nat
  password : String
  cipher : String
  udp : Option Bool
  network : Option String
  plugin : Option String
  plugin_opts : Option (List (String × String))
deriving Repr, DecidableEq

structure TuicProxy where
  name : String
  server : String
  port : Nat
  password : String
  uuid : String
  udp : Option Bool
  tls : Option Bool
  skip_cert_verify : Option Bool
  servername : Option String
  alpn : Option (List String)
  congestion_controller : Option String
  zero_rtt : Option Bool
deriving Repr, DecidableEq

structure WireGuardProxy where
  name : String
  server : String
  port : Nat
  ip : String
  ipv6 : Option String
  private_key : String
  public_key : String
  pre_shared_key : Option String
  allowed_ips : List String
  udp : Option Bool
  mtu : Option Nat
  reserved : Option (List Nat)
deriving Repr, DecidableEq

/-- The closed tagged union `Proxy` of `clash_generator.rs`. -/
inductive Proxy where
  | vless (v : VlessProxy)
  | vmess (v : VmessProxy)
  | hysteria2 (v : Hysteria2Proxy)
  | trojan (v : TrojanProxy)
  | shadowsocks (v : ShadowsocksProxy)
  | tuic (v : TuicProxy)
  | wireguard (v : WireGuardProxy)
deriving Repr, DecidableEq

/-- The per-variant `name` clone performed twice in `generate_clash_yaml`. -/
def nameOf : Proxy → String
  | .vless v => v.name
  | .vmess v => v.name
  | .hysteria2 v => v.name
  | .trojan v => v.name
  | .shadowsocks v => v.name
  | .tuic v => v.name
  | .wireguard v => v.name

/-! ## Link decoders -/

/-- `parse_vless` of `clash_generator.rs`. -/
def parse_vless (link : String) : Option Proxy := do
  let url ← urlParse link
  let name := url.fragment.getD "VLESS Node"
  let query := url.query
  let server ← url.host
  let port ← url.port
  let uuid := url.username
  let security := qget query "security"
  let type_ := qget query "type"
  let sni := qget query "sni"
  let fp := qget query "fp"
  let flow := qget query "flow"
  let allowInsecure := ((qget query "allowInsecure").map
      (fun s => s = "1" || s = "true")).getD false
  let reality_opts : Option RealityOpts :=
    if security = some "reality" then
      some { public_key := (qget query "pbk").getD "",
             short_id := (qget query "sid").getD "" }
    else none
  let network :=
    if type_ = some "tcp" ∧ security = some "reality" then some "tcp" else type_
  let ws_opts : Option WsOpts :=
    if network = some "ws" then
      some { path := (qget query "path").getD "/",
             headers := some [("Host", sni.getD server)] }
    else none
  let grpc_opts : Option GrpcOpts :=
    if network = some "grpc" then
      some { grpc_service_name := (qget query "serviceName").getD "" }
    else none
  some (.vless {
    name, server, port, uuid, flow,
    udp := some true,
    tls := some security.isSome,
    skip_cert_verify := if allowInsecure then some true else none,
    servername := sni,
    network,
    client_fingerprint := fp,
    reality_opts, ws_opts, grpc_opts })

/-- Field extraction of `parse_vmess` after the base64/UTF-8/JSON stages (the
source inlines this in the same function body). -/
def vmessFromJson (v : Json) : Option Proxy := do
  let name := (v.index "ps").asStr.getD "VMess Node"
  let server ← (v.index "add").asStr
  let port ← ((v.index "port").asStr).bind parseU16
  let vmess_uuid ← (v.index "id").asStr
  let aid := (((v.index "aid").asStr).bind parseU16).getD 0
  let net := (v.index "net").asStr.getD "tcp"
  let host := (v.index "host").asStr.getD ""
  let path := (v.index "path").asStr.getD ""
  let tls_str := (v.index "tls").asStr.getD ""
  let tls := if tls_str = "tls" then some true else none
  let ws_opts : Option WsOpts :=
    if net = "ws" then
      some { path := if path = "" then "/" else path,
             headers := if host ≠ "" then some [("Host", host)] else none }
    else none
  some (.vmess {
    name, server, port, uuid := vmess_uuid, alter_id := aid,
    cipher := "auto",
    udp := some true, tls,
    skip_cert_verify := some true,
    servername := if host ≠ "" then some host else none,
    network := some net, ws_opts })

/-- The base64 → UTF-8 → JSON stages of `parse_vmess`. -/
def vmessJson (link : String) : Option Json := do
  let decoded_bytes ← base64Decode (trimStartMatches "vmess://" link)
  let json_str ← utf8Decode decoded_bytes
  jsonParse json_str

/-- `parse_vmess` of `clash_generator.rs`. -/
def parse_vmess (link : String) : Option Proxy :=
  (vmessJson link).bind vmessFromJson

/-- `parse_hy2` of `clash_generator.rs`. -/
def parse_hy2 (link : String) : Option Proxy := do
  let url ← urlParse link
  let name := url.fragment.getD "Hy2 Node"
  let query := url.query
  let server ← url.host
  let port ← url.port
  let password := url.username
  let sni := qget query "sni"
  let obfs := qget query "obfs"
  let obfs_password := qget query "obfs-password"
  some (.hysteria2 {
    name, server, port, password, sni,
    skip_cert_verify := some true, obfs, obfs_password })

/-- `parse_trojan` of `clash_generator.rs`. -/
def parse_trojan (link : String) : Option Proxy := do
  let url ← urlParse link
  let name := url.fragment.getD "Trojan Node"
  let query := url.query
  let server ← url.host
  let port ← url.port
  let password := url.username
  let security := qget query "security"
  let sni := qget query "sni"
  let fp := qget query "fp"
  let flow := qget query "flow"
  let reality_opts : Option RealityOpts :=
    if security = some "reality" then
      some { public_key := (qget query "pbk").getD "",
             short_id := (qget query "sid").getD "" }
    else none
  some (.trojan {
    name, server, port, password,
    udp := some true,
    tls := some true,
    skip_cert_verify := some true,
    servername := sni,
    network := none,
    client_fingerprint := fp,
    flow, reality_opts })

/-- Name/config split of `parse_ss`: its `find('#')` keys on the FIRST `#`
and takes the name verbatim (no percent-decoding); absent `#` yields the
default name. -/
def ssSplit (rest : List Char) : List Char × String :=
  match splitFirstChar '#' rest with
  | some (cfg, nm) => (cfg, ⟨nm⟩)
  | none => (rest, "Shadowsocks Node")

/-- `parse_ss` of `clash_generator.rs`. -/
def parse_ss (link : String) : Option Proxy := do
  let rest := (trimStartMatches "ss://" link).data
  let (config_part, name_part) := ssSplit rest
  let decoded_config ← b64DecodeAux config_part
  let decoded_str ← utf8Decode decoded_config
  match splitOnChar '@' decoded_str.data with
  | [p0, p1] =>
    match splitN2 ':' p0 with
    | [m0, m1] =>
      let cipher : String := ⟨m0⟩
      let password : String := ⟨m1⟩
      match splitN2 ':' p1 with
      | [s0, s1] => do
        let port ← parseNatLe 65535 s1
        some (.shadowsocks {
          name := name_part, server := ⟨s0⟩, port, password, cipher,
          udp := some true, network := none, plugin := none, plugin_opts := none })
      | _ => none
    | _ => none
  | _ => none

/-- `parse_tuic` of `clash_generator.rs`. -/
def parse_tuic (link : String) : Option Proxy := do
  let url ← urlParse link
  let name := url.fragment.getD "TUIC Node"
  let query := url.query
  let server ← url.host
  let port ← url.port
  let userinfo := url.username
  let userinfo_parts := splitN2 ':' userinfo.data
  let uuid ← (userinfo_parts.get? 0).map (fun cs => String.mk cs)
  let password := ((userinfo_parts.get? 1).map (fun cs => String.mk cs)).getD ""
  let sni := qget query "sni"
  let congestion_controller := qget query "congestion_control"
  let alpn_str := qget query "alpn"
  let zero_rtt := (qget query "zero_rtt").map (fun s => s = "1" || s = "true")
  let insecure := (qget query "insecure").map (fun s => s = "1" || s = "true")
  let alpn := alpn_str.map (fun s => (splitOnChar ',' s.data).map (fun a => String.mk a))
  some (.tuic {
    name, server, port, password, uuid,
    udp := some true,
    tls := some true,
    skip_cert_verify := insecure,
    servername := sni,
    alpn, congestion_controller, zero_rtt })

/-! ## WireGuard decoder -/

/-- The mutable locals of `parse_wireguard`'s line loop. -/
structure WgScan where
  current_section : String
  private_key : Option String
  ip : Option String
  ipv6 : Option String
  mtu : Option Nat
  public_key : Option String
  endpoint : Option String
  allowed_ips : List String
  pre_shared_key : Option String
deriving Repr, DecidableEq

def wgInit : WgScan :=
  { current_section := "", private_key := none, ip := none, ipv6 := none,
    mtu := none, public_key := none, endpoint := none, allowed_ips := [],
    pre_shared_key := none }

/-- `Address` handling: comma-split, strip a CIDR suffix, items containing `:`
set the IPv6 slot, others the IPv4 slot — last one wins per family. -/
def wgApplyAddress (st : WgScan) (value : List Char) : WgScan :=
  (splitOnChar ',' value).foldl (fun st addr =>
    let addr := trimChars addr
    let ip_part := (splitOnChar '/' addr).headI
    if ip_part.contains ':' then { st with ipv6 := some ⟨ip_part⟩ }
    else { st with ip := some ⟨ip_part⟩ }) st

/-- One line of `parse_wireguard`'s loop. -/
def wgLine (st : WgScan) (rawLine : List Char) : WgScan :=
  let line := trimChars rawLine
  if line = [] ∨ line.headI = '#' then st
  else if line.headI = '[' ∧ line.getLast? = some ']' then
    { st with current_section := ⟨(line.drop 1).dropLast⟩ }
  else
    match splitN2 '=' line with
    | [kRaw, vRaw] =>
      let key := lowerStr ⟨trimChars kRaw⟩
      let value := trimChars vRaw
      let sec := lowerStr st.current_section
      if sec = "interface" then
        if key = "privatekey" then { st with private_key := some ⟨value⟩ }
        else if key = "address" then wgApplyAddress st value
        else if key = "mtu" then { st with mtu := parseU32 ⟨value⟩ }
        else st
      else if sec = "peer" then
        if key = "publickey" then { st with public_key := some ⟨value⟩ }
        else if key = "endpoint" then { st with endpoint := some ⟨value⟩ }
        else if key = "allowedips" then
          { st with allowed_ips := (splitOnChar ',' value).map (fun s => ⟨trimChars s⟩) }
        else if key = "presharedkey" then { st with pre_shared_key := some ⟨value⟩ }
        else st
      else st
    | _ => st

/-- Rust `str::lines`: split on `\n`, dropping a trailing `\r` per line. -/
def rustLines (s : String) : List (List Char) :=
  (splitOnChar '\n' s.data).map (fun l => if l.getLast? = some '\r' then l.dropLast else l)

/-- The whole line loop of `parse_wireguard`. -/
def wgScan (content : String) : WgScan :=
  (rustLines content).foldl wgLine wgInit

/-- `Endpoint` splitting: `rfind(':')`, bracketed IPv6 stripped, port
defaulting to 51820 when missing or unparsable. -/
def wgEndpoint (endpoint_str : String) : String × Nat :=
  match splitLastChar ':' endpoint_str.data with
  | some (hostRaw, portStr) =>
    let host :=
      if hostRaw.headI = '[' ∧ hostRaw.getLast? = some ']'
      then (hostRaw.drop 1).dropLast else hostRaw
    (⟨host⟩, (parseNatLe 65535 portStr).getD 51820)
  | none => (endpoint_str, 51820)

/-- `parse_wireguard` of `clash_generator.rs`. -/
def parse_wireguard (content : String) : Option Proxy :=
  let st := wgScan content
  if st.private_key = none ∨ st.public_key = none ∨ st.endpoint = none ∨ st.ip = none
  then none
  else
    let (server, port) := wgEndpoint (st.endpoint.getD "")
    let allowed_ips :=
      if st.allowed_ips = [] then ["0.0.0.0/0", "::/0"] else st.allowed_ips
    some (.wireguard {
      name := "WireGuard", server, port,
      ip := st.ip.getD "", ipv6 := st.ipv6,
      private_key := st.private_key.getD "",
      public_key := st.public_key.getD "",
      pre_shared_key := st.pre_shared_key,
      allowed_ips, udp := some true, mtu := st.mtu, reserved := none })

/-- The scheme dispatch of the link loop in `generate_clash_yaml`. -/
def decodeLink (link : String) : Option Proxy :=
  if strStarts "vless://" link then parse_vless link
  else if strStarts "vmess://" link then parse_vmess link
  else if strStarts "hy2://" link || strStarts "hysteria2://" link then parse_hy2 link
  else if strStarts "trojan://" link then parse_trojan link
  else if strStarts "ss://" link then parse_ss link
  else if strStarts "tuic://" link then parse_tuic link
  else none

/-! ## YAML document model

The slice of `serde_yaml::Value` that `generate_clash_yaml` reads and
mutates. Mappings are association lists with string keys (the only key kind
the merger compares or inserts); insertion on an existing key replaces the
value in place and otherwise appends, as `serde_yaml::Mapping::insert`
(an index-map) does. -/

inductive Yaml where
  | null
  | bool (b : Bool)
  | nat (n : Nat)
  | str (s : String)
  | seq (xs : List Yaml)
  | map (kvs : List (String × Yaml))
deriving Repr, Inhabited

def mapGet (kvs : List (String × Yaml)) (k : String) : Option Yaml :=
  match kvs with
  | [] => none
  | (k', v) :: rest => if k' = k then some v else mapGet rest k

def mapInsert (kvs : List (String × Yaml)) (k : String) (v : Yaml) :
    List (String × Yaml) :=
  match kvs with
  | [] => [(k, v)]
  | (k', v') :: rest =>
    if k' = k then (k, v) :: rest else (k', v') :: mapInsert rest k v

/-- `Value::get` on a string key. -/
def Yaml.get (d : Yaml) (k : String) : Option Yaml :=
  match d with
  | .map m => mapGet m k
  | _ => none

/-- In-place insertion through `as_mapping_mut` — a no-op on non-mappings,
as the source's `if let Some(mapping) = ... { mapping.insert(...) }`. -/
def Yaml.insertKey (d : Yaml) (k : String) (v : Yaml) : Yaml :=
  match d with
  | .map m => .map (mapInsert m k v)
  | other => other

/-! ## Serialization (model of `serde_yaml::to_value` / `to_string`)

Field names, order and `skip_serializing_if = Option::is_none` omission follow
the `#[derive(Serialize)]` attributes of the structs; the enum's
`#[serde(tag = "type")]` places the tag first. -/

def optEntry (k : String) : Option Yaml → List (String × Yaml)
  | some v => [(k, v)]
  | none => []

def oStr (o : Option String) : Option Yaml := o.map .str

def oBool (o : Option Bool) : Option Yaml := o.map .bool

def oNat (o : Option Nat) : Option Yaml := o.map .nat

def realityToYaml (r : RealityOpts) : Yaml :=
  .map [("public-key", .str r.public_key), ("short-id", .str r.short_id)]

def wsOptsToYaml (w : WsOpts) : Yaml :=
  .map ([("path", .str w.path)] ++
    optEntry "headers" (w.headers.map (fun hs =>
      .map (hs.map (fun p => (p.1, Yaml.str p.2))))))

def grpcToYaml (g : GrpcOpts) : Yaml :=
  .map [("grpc-service-name", .str g.grpc_service_name)]

def proxyToYaml : Proxy → Yaml
  | .vless v => .map (
      [("type", .str "vless"), ("name", .str v.name), ("server", .str v.server),
       ("port", .nat v.port), ("uuid", .str v.uuid)]
      ++ optEntry "flow" (oStr v.flow)
      ++ optEntry "udp" (oBool v.udp)
      ++ optEntry "tls" (oBool v.tls)
      ++ optEntry "skip-cert-verify" (oBool v.skip_cert_verify)
      ++ optEntry "servername" (oStr v.servername)
      ++ optEntry "network" (oStr v.network)
      ++ optEntry "client-fingerprint" (oStr v.client_fingerprint)
      ++ optEntry "reality-opts" (v.reality_opts.map realityToYaml)
      ++ optEntry "ws-opts" (v.ws_opts.map wsOptsToYaml)
      ++ optEntry "grpc-opts" (v.grpc_opts.map grpcToYaml))
  | .vmess v => .map (
      [("type", .str "vmess"), ("name", .str v.name), ("server", .str v.server),
       ("port", .nat v.port), ("uuid", .str v.uuid),
       ("alterId", .nat v.alter_id), ("cipher", .str v.cipher)]
      ++ optEntry "udp" (oBool v.udp)
      ++ optEntry "tls" (oBool v.tls)
      ++ optEntry "skip-cert-verify" (oBool v.skip_cert_verify)
      ++ optEntry "servername" (oStr v.servername)
      ++ optEntry "network" (oStr v.network)
      ++ optEntry "ws-opts" (v.ws_opts.map wsOptsToYaml))
  | .hysteria2 v => .map (
      [("type", .str "hysteria2"), ("name", .str v.name),
       ("server", .str v.server), ("port", .nat v.port),
       ("password", .str v.password)]
      ++ optEntry "sni" (oStr v.sni)
      ++ optEntry "skip-cert-verify" (oBool v.skip_cert_verify)
      ++ optEntry "obfs" (oStr v.obfs)
      ++ optEntry "obfs-password" (oStr v.obfs_password))
  | .trojan v => .map (
      [("type", .str "trojan"), ("name", .str v.name), ("server", .str v.server),
       ("port", .nat v.port), ("password", .str v.password)]
      ++ optEntry "udp" (oBool v.udp)
      ++ optEntry "tls" (oBool v.tls)
      ++ optEntry "skip-cert-verify" (oBool v.skip_cert_verify)
      ++ optEntry "servername" (oStr v.servername)
      ++ optEntry "network" (oStr v.network)
      ++ optEntry "client-fingerprint" (oStr v.client_fingerprint)
      ++ optEntry "flow" (oStr v.flow)
      ++ optEntry "reality-opts" (v.reality_opts.map realityToYaml))
  | .shadowsocks v => .map (
      [("type", .str "ss"), ("name", .str v.name), ("server", .str v.server),
       ("port", .nat v.port), ("password", .str v.password),
       ("cipher", .str v.cipher)]
      ++ optEntry "udp" (oBool v.udp)
      ++ optEntry "network" (oStr v.network)
      ++ optEntry "plugin" (oStr v.plugin)
      ++ optEntry "plugin-opts" (v.plugin_opts.map (fun os =>
           .map (os.map (fun p => (p.1, Yaml.str p.2))))))
  | .tuic v => .map (
      [("type", .str "tuic"), ("name", .str v.name), ("server", .str v.server),
       ("port", .nat v.port), ("password", .str v.password),
       ("uuid", .str v.uuid)]
      ++ optEntry "udp" (oBool v.udp)
      ++ optEntry "tls" (oBool v.tls)
      ++ optEntry "skip-cert-verify" (oBool v.skip_cert_verify)
      ++ optEntry "servername" (oStr v.servername)
      ++ optEntry "alpn" (v.alpn.map (fun xs => .seq (xs.map .str)))
      ++ optEntry "congestion-controller" (oStr v.congestion_controller)
      ++ optEntry "zero-rtt" (oBool v.zero_rtt))
  | .wireguard v => .map (
      [("type", .str "wireguard"), ("name", .str v.name),
       ("server", .str v.server), ("port", .nat v.port), ("ip", .str v.ip)]
      ++ optEntry "ipv6" (oStr v.ipv6)
      ++ [("private-key", .str v.private_key), ("public-key", .str v.public_key)]
      ++ optEntry "pre-shared-key" (oStr v.pre_shared_key)
      ++ [("allowed-ips", .seq (v.allowed_ips.map .str))]
      ++ optEntry "udp" (oBool v.udp)
      ++ optEntry "mtu" (oNat v.mtu)
      ++ optEntry "reserved" (v.reserved.map (fun bs => .seq (bs.map .nat))))

/-- The `ProxyGroup` struct of `clash_generator.rs`. -/
structure ProxyGroup where
  name : String
  group_type : String
  proxies : List String
  url : Option String
  interval : Option Nat
deriving Repr, DecidableEq

def groupToYaml (g : ProxyGroup) : Yaml :=
  .map ([("name", .str g.name), ("type", .str g.group_type),
         ("proxies", .seq (g.proxies.map .str))]
        ++ optEntry "url" (oStr g.url)
        ++ optEntry "interval" (oNat g.interval))

/-- The `ClashConfig` struct of `clash_generator.rs`. -/
structure ClashConfig where
  proxies : List Proxy
  proxy_groups : List ProxyGroup
  rules : List String

def configToYaml (c : ClashConfig) : Yaml :=
  .map [("proxies", .seq (c.proxies.map proxyToYaml)),
        ("proxy-groups", .seq (c.proxy_groups.map groupToYaml)),
        ("rules", .seq (c.rules.map .str))]

/-! ## Template merging -/

/-- `group.get("name").and_then(|n| n.as_str()).map(|s| s == "PROXY").unwrap_or(false)`. -/
def isTargetGroup (g : Yaml) : Bool :=
  match g.get "name" with
  | some (.str s) => s = "PROXY"
  | _ => false

/-- Body of the found-group branch: append the new names when the group's
`proxies` is a sequence, otherwise install a fresh list of the names. -/
def updateGroup (g : Yaml) (proxy_names : List String) : Yaml :=
  match g.get "proxies" with
  | some (.seq qs) => g.insertKey "proxies" (.seq (qs ++ proxy_names.map .str))
  | _ => g.insertKey "proxies" (.seq (proxy_names.map .str))

/-- The fresh `select` group pushed when no group named `PROXY` exists. -/
def newProxyGroup (proxy_names : List String) : Yaml :=
  .map [("name", .str "PROXY"), ("type", .str "select"),
        ("proxies", .seq (proxy_names.map .str))]

/-- The `for group in groups_seq` loop with its `break`: update the first
group named `PROXY`, or report that none was found. -/
def updateFirstTarget (gs : List Yaml) (names : List String) : Option (List Yaml) :=
  match gs with
  | [] => none
  | g :: rest =>
    if isTargetGroup g then some (updateGroup g names :: rest)
    else (updateFirstTarget rest names).map (fun r => g :: r)

/-- `if doc.get(k).is_none() || doc.get(k) is null { mapping.insert(k, []) }`. -/
def ensureSeqKey (doc : Yaml) (k : String) : Yaml :=
  match doc.get k with
  | none => doc.insertKey k (.seq [])
  | some .null => doc.insertKey k (.seq [])
  | some _ => doc

/-- `doc.get_mut(k).and_then(|v| v.as_sequence_mut())` followed by pushes;
a no-op when the key's value is not a sequence. -/
def pushSeqKey (doc : Yaml) (k : String) (items : List Yaml) : Yaml :=
  match doc.get k with
  | some (.seq xs) => doc.insertKey k (.seq (xs ++ items))
  | _ => doc

/-- Step 2 of the merge: find-and-update or append the `PROXY` group, skipped
entirely when `proxy-groups` is not a sequence. -/
def mergeGroupsStep (doc : Yaml) (names : List String) : Yaml :=
  match doc.get "proxy-groups" with
  | some (.seq gs) =>
    (match updateFirstTarget gs names with
     | some gs' => doc.insertKey "proxy-groups" (.seq gs')
     | none => doc.insertKey "proxy-groups" (.seq (gs ++ [newProxyGroup names])))
  | _ => doc

/-- The template-merging branch of `generate_clash_yaml`. -/
def mergeTemplate (doc : Yaml) (proxies : List Proxy) (proxy_names : List String) :
    Yaml :=
  let d1 := ensureSeqKey doc "proxies"
  let d2 := pushSeqKey d1 "proxies" (proxies.map proxyToYaml)
  let d3 := ensureSeqKey d2 "proxy-groups"
  mergeGroupsStep d3 proxy_names

/-! ## The pipeline entry point -/

/-- The two collection loops of `generate_clash_yaml`: extra proxies first,
then every decodable link, names pushed in the same order. -/
def collectProxies (links : List String) (extra_proxies : List Proxy) :
    List Proxy × List String :=
  let ps := extra_proxies ++ links.filterMap decodeLink
  (ps, ps.map nameOf)

/-- The two default groups of the no-template branch. -/
def defaultGroups (proxy_names : List String) : List ProxyGroup :=
  [{ name := "Proxy", group_type := "select",
     proxies := "Auto" :: proxy_names, url := none, interval := none },
   { name := "Auto", group_type := "url-test", proxies := proxy_names,
     url := some "http://www.gstatic.com/generate_204", interval := some 300 }]

def defaultConfig (proxies : List Proxy) (proxy_names : List String) : ClashConfig :=
  { proxies, proxy_groups := defaultGroups proxy_names,
    rules := ["MATCH,Proxy"] }

/-- `generate_clash_yaml`. The template argument carries the outcome of
`serde_yaml::from_str` on the template text (whose `?` failure the source
propagates); serialization of the well-formed values produced here is
modelled as total, so the final `to_string` step cannot fail. -/
def generate_clash_yaml (links : List String) (extra_proxies : List Proxy)
    (template : Option (Except String Yaml)) : Except String Yaml :=
  let c := collectProxies links extra_proxies
  match template with
  | some (.error e) => .error e
  | some (.ok doc) => .ok (mergeTemplate doc c.1 c.2)
  | none => .ok (configToYaml (defaultConfig c.1 c.2))

/-! ## Specification-side definitions used by the claim statements -/

/-- Restatement of the amended Shadowsocks-decoder description: everything
after the FIRST `#` is the display name, taken verbatim (default
`"Shadowsocks Node"` when no `#` is present); the remainder is base64-decoded
to UTF-8 text of the exact shape `cipher:password@server:port`, any deviation
failing the decode. To be compared with `parse_ss`. -/
def ss_spec (link : String) : Option Proxy := do
  let body := (trimStartMatches "ss://" link).data
  let (cfg, nm) := match splitFirstChar '#' body with
    | some (c, n) => (c, String.mk n)
    | none => (body, "Shadowsocks Node")
  let bytes ← b64DecodeAux cfg
  let text ← utf8Decode bytes
  match splitOnChar '@' text.data with
  | [credPart, addrPart] =>
    match splitN2 ':' credPart with
    | [cipherTxt, passwordTxt] =>
      match splitN2 ':' addrPart with
      | [serverTxt, portTxt] => do
        let port ← parseNatLe 65535 portTxt
        some (.shadowsocks {
          name := nm, server := ⟨serverTxt⟩, port, password := ⟨passwordTxt⟩,
          cipher := ⟨cipherTxt⟩, udp := some true, network := none,
          plugin := none, plugin_opts := none })
      | _ => none
    | _ => none
  | _ => none

/-- The `ws-opts` block carried by a proxy, if any. -/
def wsOptsOf : Proxy → Option WsOpts
  | .vless v => v.ws_opts
  | .vmess v => v.ws_opts
  | _ => none

/-- The `grpc-opts` block carried by a proxy, if any. -/
def grpcOptsOf : Proxy → Option GrpcOpts
  | .vless v => v.grpc_opts
  | _ => none

/-- The `reality-opts` block carried by a proxy, if any. -/
def realityOptsOf : Proxy → Option RealityOpts
  | .vless v => v.reality_opts
  | .trojan v => v.reality_opts
  | _ => none

/-- A link that explicitly carries an empty display name: a URI whose
fragment is present but empty, an `ss://` link whose part after the first
`#` is empty, or a vmess payload whose `ps` field is the empty string. -/
def carriesEmptyName (link : String) : Prop :=
  (∃ u, urlParse link = some u ∧ u.fragment = some "") ∨
  (ssSplit (trimStartMatches "ss://" link).data).2 = "" ∨
  (∃ j, vmessJson link = some j ∧ (j.index "ps").asStr = some "")

/-- Group-level preservation used by the frame claim: every key other than
`proxies` keeps its value, and an existing `proxies` sequence survives as a
prefix. -/
def groupPreserved (g g' : Yaml) : Prop :=
  (∀ k, k ≠ "proxies" → g'.get k = g.get k) ∧
  (∀ qs, g.get "proxies" = some (.seq qs) →
    ∃ tail, g'.get "proxies" = some (.seq (qs ++ tail)))

/-! ## Shared lemmas -/

lemma mapGet_mapInsert (m : List (String × Yaml)) (k : String) (v : Yaml)
    (q : String) :
    mapGet (mapInsert m k v) q = if k = q then some v else mapGet m q := by
  induction m with
  | nil =>
    by_cases h : k = q <;> simp [mapInsert, mapGet, h]
  | cons hd tl ih =>
    obtain ⟨k', v'⟩ := hd
    by_cases h1 : k' = k
    · subst h1
      by_cases h2 : k' = q <;> simp [mapInsert, mapGet, h2]
    · by_cases h2 : k' = q
      · subst h2
        have : ¬ k = k' := fun hh => h1 hh.symm
        simp [mapInsert, mapGet, h1, this]
      · simp [mapInsert, mapGet, h1, h2, ih]

lemma updateFirstTarget_found (pre : List Yaml) (g : Yaml) (post : List Yaml)
    (names : List String)
    (hpre : ∀ g' ∈ pre, isTargetGroup g' = false)
    (hg : isTargetGroup g = true) :
    updateFirstTarget (pre ++ g :: post) names =
      some (pre ++ updateGroup g names :: post) := by
  induction pre with
  | nil => simp [updateFirstTarget, hg]
  | cons a t ih =>
    have ha : isTargetGroup a = false := hpre a (List.mem_cons_self a t)
    have ht : ∀ g' ∈ t, isTargetGroup g' = false :=
      fun g' hm => hpre g' (List.mem_cons_of_mem a hm)
    simp [updateFirstTarget, ha, ih ht]

lemma updateFirstTarget_notFound (gs : List Yaml) (names : List String)
    (h : ∀ g ∈ gs, isTargetGroup g = false) :
    updateFirstTarget gs names = none := by
  induction gs with
  | nil => rfl
  | cons a t ih =>
    have ha : isTargetGroup a = false := h a (List.mem_cons_self a t)
    have ht : ∀ g ∈ t, isTargetGroup g = false :=
      fun g hm => h g (List.mem_cons_of_mem a hm)
    simp [updateFirstTarget, ha, ih ht]

lemma updateFirstTarget_some (gs : List Yaml) (names : List String)
    (gs' : List Yaml) (h : updateFirstTarget gs names = some gs') :
    ∃ pre g post, gs = pre ++ g :: post ∧
      gs' = pre ++ updateGroup g names :: post := by
  induction gs generalizing gs' with
  | nil => simp [updateFirstTarget] at h
  | cons a t ih =>
    by_cases ha : isTargetGroup a
    · simp [updateFirstTarget, ha] at h
      exact ⟨[], a, t, rfl, h.symm⟩
    · simp [updateFirstTarget, ha] at h
      obtain ⟨r, hr, hr'⟩ := h
      obtain ⟨pre, g, post, h1, h2⟩ := ih r hr
      exact ⟨a :: pre, g, post, by simp [h1], by simp [← hr', h2]⟩

lemma groupPreserved_refl (g : Yaml) : groupPreserved g g :=
  ⟨fun _ _ => rfl, fun qs h => ⟨[], by simp [h]⟩⟩

lemma updateGroup_get_ne (g : Yaml) (names : List String) (k : String)
    (hk : k ≠ "proxies") : (updateGroup g names).get k = g.get k := by
  have hk' : ¬ ("proxies" : String) = k := fun hh => hk hh.symm
  unfold updateGroup
  cases g with
  | map m =>
    cases hgp : (Yaml.map m).get "proxies" with
    | none => simp [Yaml.insertKey, Yaml.get, mapGet_mapInsert, hk']
    | some v =>
      cases v <;> simp [Yaml.insertKey, Yaml.get, mapGet_mapInsert, hk']
  | null => simp [Yaml.get, Yaml.insertKey]
  | bool b => simp [Yaml.get, Yaml.insertKey]
  | nat n => simp [Yaml.get, Yaml.insertKey]
  | str s => simp [Yaml.get, Yaml.insertKey]
  | seq xs => simp [Yaml.get, Yaml.insertKey]

lemma groupPreserved_updateGroup (g : Yaml) (names : List String) :
    groupPreserved g (updateGroup g names) := by
  refine ⟨fun k hk => updateGroup_get_ne g names k hk, fun qs h => ?_⟩
  refine ⟨names.map Yaml.str, ?_⟩
  cases g with
  | map m =>
    simp only [Yaml.get] at h
    simp [updateGroup, Yaml.get, h, Yaml.insertKey, mapGet_mapInsert]
  | null => simp [Yaml.get] at h
  | bool b => simp [Yaml.get] at h
  | nat n => simp [Yaml.get] at h
  | str s => simp [Yaml.get] at h
  | seq xs => simp [Yaml.get] at h

/-- The first two merge steps (`proxies` normalisation and pushes) keep the
document a mapping, touch only the `proxies` key, and append the rendered
entries to an existing `proxies` sequence. -/
lemma proxies_stage (m : List (String × Yaml)) (items : List Yaml) :
    ∃ m₂, pushSeqKey (ensureSeqKey (.map m) "proxies") "proxies" items = .map m₂ ∧
      (∀ q, q ≠ "proxies" → mapGet m₂ q = mapGet m q) ∧
      (∀ ps, mapGet m "proxies" = some (.seq ps) →
        mapGet m₂ "proxies" = some (.seq (ps ++ items))) := by
  cases hp : mapGet m "proxies" with
  | none =>
    refine ⟨mapInsert (mapInsert m "proxies" (.seq [])) "proxies" (.seq items),
      ?_, ?_, ?_⟩
    · simp [ensureSeqKey, pushSeqKey, Yaml.get, hp, Yaml.insertKey,
        mapGet_mapInsert]
    · intro q hq
      have hq' : ¬ ("proxies" : String) = q := fun hh => hq hh.symm
      simp [mapGet_mapInsert, hq']
    · intro ps hps
      exact absurd hps (by simp)
  | some v =>
    cases v with
    | null =>
      refine ⟨mapInsert (mapInsert m "proxies" (.seq [])) "proxies" (.seq items),
        ?_, ?_, ?_⟩
      · simp [ensureSeqKey, pushSeqKey, Yaml.get, hp, Yaml.insertKey,
          mapGet_mapInsert]
      · intro q hq
        have hq' : ¬ ("proxies" : String) = q := fun hh => hq hh.symm
        simp [mapGet_mapInsert, hq']
      · intro ps hps
        exact absurd hps (by simp)
    | seq ps =>
      refine ⟨mapInsert m "proxies" (.seq (ps ++ items)), ?_, ?_, ?_⟩
      · simp [ensureSeqKey, pushSeqKey, Yaml.get, hp, Yaml.insertKey]
      · intro q hq
        have hq' : ¬ ("proxies" : String) = q := fun hh => hq hh.symm
        simp [mapGet_mapInsert, hq']
      · intro ps' hps'
        simp only [Option.some.injEq, Yaml.seq.injEq] at hps'
        subst hps'
        simp [mapGet_mapInsert]
    | bool b => exact ⟨m, by simp [ensureSeqKey, pushSeqKey, Yaml.get, hp],
        fun _ _ => rfl, fun ps hps => absurd hps (by simp)⟩
    | nat n => exact ⟨m, by simp [ensureSeqKey, pushSeqKey, Yaml.get, hp],
        fun _ _ => rfl, fun ps hps => absurd hps (by simp)⟩
    | str s => exact ⟨m, by simp [ensureSeqKey, pushSeqKey, Yaml.get, hp],
        fun _ _ => rfl, fun ps hps => absurd hps (by simp)⟩
    | map mm => exact ⟨m, by simp [ensureSeqKey, pushSeqKey, Yaml.get, hp],
        fun _ _ => rfl, fun ps hps => absurd hps (by simp)⟩

lemma parse_hy2_inv (link : String) (p : Proxy) (h : parse_hy2 link = some p) :
    ∃ url v, urlParse link = some url ∧ p = .hysteria2 v ∧
      v.name = url.fragment.getD "Hy2 Node" := by
  cases hurl : urlParse link with
  | none => simp [parse_hy2, hurl] at h
  | some url =>
    cases hh : url.host with
    | none => simp [parse_hy2, hurl, hh] at h
    | some server =>
      cases hpo : url.port with
      | none => simp [parse_hy2, hurl, hh, hpo] at h
      | some port =>
        simp [parse_hy2, hurl, hh, hpo] at h
        exact ⟨url, _, rfl, h.symm, rfl⟩

lemma parse_vless_inv (link : String) (p : Proxy) (h : parse_vless link = some p) :
    ∃ url v, urlParse link = some url ∧ p = .vless v ∧
      v.name = url.fragment.getD "VLESS Node" ∧
      (v.ws_opts.isSome → v.network = some "ws") ∧
      (v.grpc_opts.isSome → v.network = some "grpc") := by
  cases hurl : urlParse link with
  | none => simp [parse_vless, hurl] at h
  | some url =>
    cases hh : url.host with
    | none => simp [parse_vless, hurl, hh] at h
    | some server =>
      cases hpo : url.port with
      | none => simp [parse_vless, hurl, hh, hpo] at h
      | some port =>
        simp [parse_vless, hurl, hh, hpo] at h
        subst h
        refine ⟨url, _, rfl, rfl, rfl, ?_, ?_⟩
        · intro hws
          dsimp only at hws ⊢
          split at hws
          · simp at hws
          · rename_i hN
            rw [if_neg hN]
            split at hws
            · rename_i hN2
              exact hN2
            · simp at hws
        · intro hg
          dsimp only at hg ⊢
          split at hg
          · simp at hg
          · rename_i hN
            rw [if_neg hN]
            split at hg
            · rename_i hN2
              exact hN2
            · simp at hg

lemma parse_trojan_inv (link : String) (p : Proxy) (h : parse_trojan link = some p) :
    ∃ url v, urlParse link = some url ∧ p = .trojan v ∧
      v.name = url.fragment.getD "Trojan Node" := by
  cases hurl : urlParse link with
  | none => simp [parse_trojan, hurl] at h
  | some url =>
    cases hh : url.host with
    | none => simp [parse_trojan, hurl, hh] at h
    | some server =>
      cases hpo : url.port with
      | none => simp [parse_trojan, hurl, hh, hpo] at h
      | some port =>
        simp [parse_trojan, hurl, hh, hpo] at h
        exact ⟨url, _, rfl, h.symm, rfl⟩

lemma parse_tuic_inv (link : String) (p : Proxy) (h : parse_tuic link = some p) :
    ∃ url v, urlParse link = some url ∧ p = .tuic v ∧
      v.name = url.fragment.getD "TUIC Node" := by
  cases hurl : urlParse link with
  | none => simp [parse_tuic, hurl] at h
  | some url =>
    cases hh : url.host with
    | none => simp [parse_tuic, hurl, hh] at h
    | some server =>
      cases hpo : url.port with
      | none => simp [parse_tuic, hurl, hh, hpo] at h
      | some port =>
        rcases hup : splitN2 ':' url.username.data with _ | ⟨u0, tail⟩
        · simp [parse_tuic, hurl, hh, hpo, hup] at h
        · simp [parse_tuic, hurl, hh, hpo, hup] at h
          exact ⟨url, _, rfl, h.symm, rfl⟩

lemma parse_vmess_inv (link : String) (p : Proxy) (h : parse_vmess link = some p) :
    ∃ j v, vmessJson link = some j ∧ p = .vmess v ∧
      v.name = (j.index "ps").asStr.getD "VMess Node" := by
  cases hj : vmessJson link with
  | none => simp [parse_vmess, hj] at h
  | some j =>
    have hv : vmessFromJson j = some p := by simpa [parse_vmess, hj] using h
    cases hadd : (j.index "add").asStr with
    | none => simp [vmessFromJson, hadd] at hv
    | some server =>
      cases hport : ((j.index "port").asStr).bind parseU16 with
      | none => simp [vmessFromJson, hadd, hport] at hv
      | some port =>
        cases hu : (j.index "id").asStr with
        | none => simp [vmessFromJson, hadd, hport, hu] at hv
        | some uuidv =>
          simp [vmessFromJson, hadd, hport, hu] at hv
          exact ⟨j, _, rfl, hv.symm, rfl⟩

lemma splitN2_cases (c : Char) (s : List Char) :
    (∃ a, splitN2 c s = [a]) ∨ ∃ a b, splitN2 c s = [a, b] := by
  unfold splitN2
  cases splitFirstChar c s with
  | none => exact Or.inl ⟨s, rfl⟩
  | some pr => exact Or.inr ⟨pr.1, pr.2, by simp⟩

lemma parse_ss_inv (link : String) (p : Proxy) (h : parse_ss link = some p) :
    ∃ v, p = .shadowsocks v ∧
      v.name = (ssSplit (trimStartMatches "ss://" link).data).2 := by
  rcases hsp : ssSplit (trimStartMatches "ss://" link).data with ⟨cfg, nm⟩
  cases hb : b64DecodeAux cfg with
  | none => simp [parse_ss, hsp, hb] at h
  | some bytes =>
    cases hu : utf8Decode bytes with
    | none => simp [parse_ss, hsp, hb, hu] at h
    | some text =>
      rcases hat : splitOnChar '@' text.data with _ | ⟨q0, _ | ⟨q1, _ | rest⟩⟩
      · simp [parse_ss, hsp, hb, hu, hat] at h
      · simp [parse_ss, hsp, hb, hu, hat] at h
      · rcases splitN2_cases ':' q0 with ⟨m0, hm⟩ | ⟨m0, m1, hm⟩
        · simp [parse_ss, hsp, hb, hu, hat, hm] at h
        · rcases splitN2_cases ':' q1 with ⟨s0, hs2⟩ | ⟨s0, s1, hs2⟩
          · simp [parse_ss, hsp, hb, hu, hat, hm, hs2] at h
          · cases hpt : parseNatLe 65535 s1 with
            | none => simp [parse_ss, hsp, hb, hu, hat, hm, hs2, hpt] at h
            | some port =>
              simp [parse_ss, hsp, hb, hu, hat, hm, hs2, hpt] at h
              refine ⟨_, h.symm, ?_⟩
              simp [hsp]
      · simp [parse_ss, hsp, hb, hu, hat] at h

lemma mergeTemplate_groups (m : List (String × Yaml)) (proxies : List Proxy)
    (names : List String) :
    ∃ m₂ : List (String × Yaml),
      (∀ q, q ≠ "proxies" → mapGet m₂ q = mapGet m q) ∧
      (∀ ps, mapGet m "proxies" = some (.seq ps) →
        mapGet m₂ "proxies" = some (.seq (ps ++ proxies.map proxyToYaml))) ∧
      mergeTemplate (.map m) proxies names =
        mergeGroupsStep (ensureSeqKey (.map m₂) "proxy-groups") names := by
  obtain ⟨m₂, hm₂, hq, hp⟩ := proxies_stage m (proxies.map proxyToYaml)
  refine ⟨m₂, hq, hp, ?_⟩
  simp only [mergeTemplate]
  rw [hm₂]

lemma groupsStep_seq (m₂ : List (String × Yaml)) (names : List String)
    (gs : List Yaml) (hg : mapGet m₂ "proxy-groups" = some (.seq gs)) :
    mergeGroupsStep (ensureSeqKey (.map m₂) "proxy-groups") names =
      .map (mapInsert m₂ "proxy-groups" (.seq
        (match updateFirstTarget gs names with
         | some gs' => gs'
         | none => gs ++ [newProxyGroup names]))) := by
  have he : ensureSeqKey (.map m₂) "proxy-groups" = .map m₂ := by
    simp [ensureSeqKey, Yaml.get, hg]
  rw [he]
  simp only [mergeGroupsStep, Yaml.get, hg]
  cases updateFirstTarget gs names <;> simp [Yaml.insertKey]

lemma groupsStep_missing (m₂ : List (String × Yaml)) (names : List String)
    (hg : mapGet m₂ "proxy-groups" = none ∨ mapGet m₂ "proxy-groups" = some .null) :
    mergeGroupsStep (ensureSeqKey (.map m₂) "proxy-groups") names =
      .map (mapInsert (mapInsert m₂ "proxy-groups" (.seq []))
        "proxy-groups" (.seq [newProxyGroup names])) := by
  have he : ensureSeqKey (.map m₂) "proxy-groups" =
      .map (mapInsert m₂ "proxy-groups" (.seq [])) := by
    rcases hg with h | h <;> simp [ensureSeqKey, Yaml.get, h, Yaml.insertKey]
  rw [he]
  have hgi : mapGet (mapInsert m₂ "proxy-groups" (.seq [])) "proxy-groups" =
      some (.seq []) := by simp [mapGet_mapInsert]
  simp only [mergeGroupsStep, Yaml.get, hgi]
  simp [updateFirstTarget, Yaml.insertKey]

/-! ## Claim theorems -/

/-- C1: with no template, the generated document's `proxy-groups` are exactly
two, in order: a `select` group whose member list is `"Auto"` followed by all
proxy names (extra-proxy names first, then successfully decoded link names,
in input order), then a `url-test` group named `"Auto"` over the same names
with the gstatic health-check URL and a 300-second interval; and its `rules`
are exactly the one catch-all entry. -/
theorem C1_default_render (links : List String) (extra_proxies : List Proxy) :
    ∃ doc, generate_clash_yaml links extra_proxies none = .ok doc ∧
      doc.get "proxy-groups" = some (.seq
        [Yaml.map [("name", .str "Proxy"), ("type", .str "select"),
           ("proxies", .seq (Yaml.str "Auto" ::
             ((extra_proxies ++ links.filterMap decodeLink).map nameOf).map Yaml.str))],
         Yaml.map [("name", .str "Auto"), ("type", .str "url-test"),
           ("proxies", .seq
             (((extra_proxies ++ links.filterMap decodeLink).map nameOf).map Yaml.str)),
           ("url", .str "http://www.gstatic.com/generate_204"),
           ("interval", .nat 300)]]) ∧
      doc.get "rules" = some (.seq [.str "MATCH,Proxy"]) :=
  ⟨_, rfl, rfl, rfl⟩

/-- C3: the pipeline returns an error exactly when a supplied template failed
to parse (serialization, modelled total, cannot fail); a link that fails to
decode or has an unrecognised scheme is silently excluded while the remaining
links are still processed, so the caller sees at most extras + links
proxies. -/
theorem C3_error_handling (links : List String) (extra_proxies : List Proxy) :
    (∀ e, generate_clash_yaml links extra_proxies (some (.error e)) = .error e) ∧
    (∀ tmpl, ∃ doc,
      generate_clash_yaml links extra_proxies (some (.ok tmpl)) = .ok doc) ∧
    (∃ doc, generate_clash_yaml links extra_proxies none = .ok doc) ∧
    (collectProxies links extra_proxies).1 =
      extra_proxies ++ links.filterMap decodeLink ∧
    (∀ pre bad post, decodeLink bad = none →
      (collectProxies (pre ++ bad :: post) extra_proxies).1 =
        (collectProxies (pre ++ post) extra_proxies).1) ∧
    (collectProxies links extra_proxies).1.length ≤
      extra_proxies.length + links.length := by
  refine ⟨fun e => rfl, fun tmpl => ⟨_, rfl⟩, ⟨_, rfl⟩, rfl, ?_, ?_⟩
  · intro pre bad post h
    simp [collectProxies, List.filterMap_append, List.filterMap_cons, h]
  · have h := List.length_filterMap_le decodeLink links
    simp only [collectProxies, List.length_append]
    omega

/-- C3 witness: a concrete bad-scheme link between two good links is dropped
while both neighbours are still decoded. -/
theorem C3_error_handling_witness :
    decodeLink "bogus://x" = none ∧
    (collectProxies (["vless://u@h:1#A"] ++ "bogus://x" :: ["ss://YWVzLTI1Ni1nY206cHdAMS4yLjMuNDo4Mzg4#B"]) []).1 =
      (collectProxies (["vless://u@h:1#A"] ++ ["ss://YWVzLTI1Ni1nY206cHdAMS4yLjMuNDo4Mzg4#B"]) []).1 :=
  ⟨rfl, (C3_error_handling [] []).2.2.2.2.1
    ["vless://u@h:1#A"] "bogus://x" ["ss://YWVzLTI1Ni1nY206cHdAMS4yLjMuNDo4Mzg4#B"] rfl⟩

/-- C5 counterexample: on a link with two `#`, the decoder keys on the FIRST
`#` and keeps the name verbatim: the result is a proxy named `"a#b"`, whereas
the claim (split at the last `#`, fragment-decoded) would require the name
`"b"` — and on a percent-escaped fragment the name keeps the escape
undecoded. -/
theorem C5_counterexample :
    Option.map nameOf
      (parse_ss "ss://YWVzLTI1Ni1nY206cHdAMS4yLjMuNDo4Mzg4#a#b") = some "a#b" ∧
    Option.map nameOf
      (parse_ss "ss://YWVzLTI1Ni1nY206cHdAMS4yLjMuNDo4Mzg4#My%20Node") =
      some "My%20Node" :=
  ⟨rfl, rfl⟩

/-- C5 amended: the Shadowsocks decoder takes everything after the FIRST `#`
as the display name, verbatim (default `"Shadowsocks Node"` when no `#`),
base64-decodes the remainder to UTF-8 text of the exact shape
`cipher:password@server:port`, failing on any deviation; the documented
example decodes as stated. -/
theorem C5_amended_ss_decoder :
    (∀ link, parse_ss link = ss_spec link) ∧
    parse_ss "ss://YWVzLTI1Ni1nY206cHdAMS4yLjMuNDo4Mzg4#MyNode" =
      some (.shadowsocks
        { name := "MyNode", server := "1.2.3.4", port := 8388,
          password := "pw", cipher := "aes-256-gcm", udp := some true,
          network := none, plugin := none, plugin_opts := none }) :=
  ⟨fun _ => rfl, rfl⟩

/-- C7: the documented vmess example decodes to name `"N"`, server
`"1.2.3.4"`, port `443`, uuid `"u"`, alter-id `0`, cipher `"auto"`; and a
decoded vmess JSON object lacking any of `add`, `port` or `id` fails the
whole decode. -/
theorem C7_vmess_decode :
    parse_vmess "vmess://eyJhZGQiOiIxLjIuMy40IiwicG9ydCI6IjQ0MyIsImlkIjoidSIsInBzIjoiTiJ9" =
      some (.vmess
        { name := "N", server := "1.2.3.4", port := 443, uuid := "u",
          alter_id := 0, cipher := "auto", udp := some true, tls := none,
          skip_cert_verify := some true, servername := none,
          network := some "tcp", ws_opts := none }) ∧
    (∀ (link : String) (kvs : List (String × Json)),
      vmessJson link = some (.obj kvs) →
      (jLookup "add" kvs = none ∨ jLookup "port" kvs = none ∨
        jLookup "id" kvs = none) →
      parse_vmess link = none) := by
  refine ⟨rfl, ?_⟩
  intro link kvs hj hmiss
  have hpv : parse_vmess link = vmessFromJson (.obj kvs) := by
    simp [parse_vmess, hj]
  rw [hpv]
  rcases hmiss with h | h | h
  · simp [vmessFromJson, Json.index, h, Json.asStr]
  · cases hadd : (Json.index (.obj kvs) "add").asStr with
    | none => simp [vmessFromJson, hadd]
    | some server => simp [vmessFromJson, hadd, Json.index, h, Json.asStr]
  · cases hadd : (Json.index (.obj kvs) "add").asStr with
    | none => simp [vmessFromJson, hadd]
    | some server =>
      cases hport : ((Json.index (.obj kvs) "port").asStr).bind parseU16 with
      | none => simp [vmessFromJson, hadd, hport]
      | some port => simp [vmessFromJson, hadd, hport, Json.index, h, Json.asStr]

/-- C7 witness: a concrete vmess payload `{"add":"a","port":"1"}` (no `id`)
fails the decode. -/
theorem C7_vmess_decode_witness :
    parse_vmess "vmess://eyJhZGQiOiJhIiwicG9ydCI6IjEifQ==" = none :=
  (C7_vmess_decode).2 "vmess://eyJhZGQiOiJhIiwicG9ydCI6IjEifQ=="
    [("add", .str "a"), ("port", .str "1")] rfl (Or.inr (Or.inr rfl))

/-- C10: a vmess payload whose `port` is a JSON number fails the whole
decode even with every required field present, and an `aid` given as a JSON
number is treated as absent, so alter-id defaults to 0. -/
theorem C10_vmess_numeric_fields :
    (∀ (link : String) (kvs : List (String × Json)) (n : Int),
      vmessJson link = some (.obj kvs) →
      jLookup "port" kvs = some (.num n) →
      parse_vmess link = none) ∧
    (∀ (link : String) (kvs : List (String × Json)) (n : Int) (p : Proxy),
      vmessJson link = some (.obj kvs) →
      jLookup "aid" kvs = some (.num n) →
      parse_vmess link = some p →
      ∃ v, p = .vmess v ∧ v.alter_id = 0) := by
  constructor
  · intro link kvs n hj hport
    have hpv : parse_vmess link = vmessFromJson (.obj kvs) := by
      simp [parse_vmess, hj]
    rw [hpv]
    cases hadd : (Json.index (.obj kvs) "add").asStr with
    | none => simp [vmessFromJson, hadd]
    | some server =>
      simp [vmessFromJson, hadd, Json.index, hport, Json.asStr]
  · intro link kvs n p hj haid hp
    have hpv : vmessFromJson (.obj kvs) = some p := by
      simpa [parse_vmess, hj] using hp
    cases hadd : (Json.index (.obj kvs) "add").asStr with
    | none => simp [vmessFromJson, hadd] at hpv
    | some server =>
      cases hport : ((Json.index (.obj kvs) "port").asStr).bind parseU16 with
      | none => simp [vmessFromJson, hadd, hport] at hpv
      | some port =>
        cases hu : (Json.index (.obj kvs) "id").asStr with
        | none => simp [vmessFromJson, hadd, hport, hu] at hpv
        | some uuidv =>
          simp [vmessFromJson, hadd, hport, hu] at hpv
          exact ⟨_, hpv.symm, by simp [Json.index, haid, Json.asStr]⟩

/-- C10 witness: `{"add":"a","port":443,"id":"u"}` (numeric port) fails, and
`{"add":"a","port":"1","id":"u","aid":7}` (numeric aid) decodes with
alter-id 0. -/
theorem C10_vmess_numeric_fields_witness :
    parse_vmess "vmess://eyJhZGQiOiJhIiwicG9ydCI6NDQzLCJpZCI6InUifQ==" = none ∧
    (∃ v, Proxy.vmess
        { name := "VMess Node", server := "a", port := 1,
          uuid := "u", alter_id := 0, cipher := "auto", udp := some true,
          tls := none, skip_cert_verify := some true, servername := none,
          network := some "tcp", ws_opts := none } = Proxy.vmess v ∧
      v.alter_id = 0) :=
  ⟨(C10_vmess_numeric_fields).1 "vmess://eyJhZGQiOiJhIiwicG9ydCI6NDQzLCJpZCI6InUifQ=="
      [("add", .str "a"), ("port", .num 443), ("id", .str "u")] 443 rfl rfl,
   (C10_vmess_numeric_fields).2 "vmess://eyJhZGQiOiJhIiwicG9ydCI6IjEiLCJpZCI6InUiLCJhaWQiOjd9"
      [("add", .str "a"), ("port", .str "1"), ("id", .str "u"), ("aid", .num 7)] 7
      (Proxy.vmess
        { name := "VMess Node", server := "a", port := 1,
          uuid := "u", alter_id := 0, cipher := "auto", udp := some true,
          tls := none, skip_cert_verify := some true, servername := none,
          network := some "tcp", ws_opts := none }) rfl rfl rfl⟩

/-- C6: the WireGuard decoder returns `none` whenever the scan of the block
left any of `PrivateKey`, `PublicKey`, `Endpoint`, or the IPv4 address slot
(filled exactly by `Address` entries) unset; and on success with no parsed
`AllowedIPs`, the allowed-ips default to `["0.0.0.0/0", "::/0"]`. -/
theorem C6_wireguard_requirements (content : String) :
    (((wgScan content).private_key = none ∨ (wgScan content).public_key = none ∨
      (wgScan content).endpoint = none ∨ (wgScan content).ip = none) →
      parse_wireguard content = none) ∧
    (∀ p, parse_wireguard content = some p → (wgScan content).allowed_ips = [] →
      ∃ v, p = .wireguard v ∧ v.allowed_ips = ["0.0.0.0/0", "::/0"]) := by
  constructor
  · intro h
    simp only [parse_wireguard]
    rw [if_pos h]
  · intro p hp hips
    by_cases hc : (wgScan content).private_key = none ∨
        (wgScan content).public_key = none ∨
        (wgScan content).endpoint = none ∨ (wgScan content).ip = none
    · simp only [parse_wireguard] at hp
      rw [if_pos hc] at hp
      exact absurd hp (by simp)
    · simp only [parse_wireguard] at hp
      rw [if_neg hc] at hp
      rw [Option.some_inj] at hp
      refine ⟨_, hp.symm, ?_⟩
      simp [hips]

/-- C6 witness: a block lacking `PrivateKey` yields no proxy; a block with
all four required entries and no `AllowedIPs` yields the default
allowed-ips. -/
theorem C6_wireguard_requirements_witness :
    parse_wireguard "[Interface]\nAddress = 1.2.3.4/24\n[Peer]\nPublicKey = pk\nEndpoint = ep:1\n" = none ∧
    (∃ v, Proxy.wireguard
        { name := "WireGuard", server := "ep.example.com", port := 51821,
          ip := "1.2.3.4", ipv6 := none, private_key := "abc",
          public_key := "pk", pre_shared_key := none,
          allowed_ips := ["0.0.0.0/0", "::/0"], udp := some true,
          mtu := none, reserved := none } = Proxy.wireguard v ∧
      v.allowed_ips = ["0.0.0.0/0", "::/0"]) :=
  ⟨(C6_wireguard_requirements
      "[Interface]\nAddress = 1.2.3.4/24\n[Peer]\nPublicKey = pk\nEndpoint = ep:1\n").1
      (Or.inl rfl),
   (C6_wireguard_requirements
      "[Interface]\nPrivateKey = abc\nAddress = 1.2.3.4/24\n[Peer]\nPublicKey = pk\nEndpoint = ep.example.com:51821\n").2
      (Proxy.wireguard
        { name := "WireGuard", server := "ep.example.com", port := 51821,
          ip := "1.2.3.4", ipv6 := none, private_key := "abc",
          public_key := "pk", pre_shared_key := none,
          allowed_ips := ["0.0.0.0/0", "::/0"], udp := some true,
          mtu := none, reserved := none }) rfl rfl⟩


/-- C4 counterexample: a vless link carrying both `security=reality` and
`type=ws` decodes to a proxy with BOTH a `reality-opts` and a `ws-opts`
block attached, refuting the at-most-one invariant. -/
theorem C4_counterexample :
    parse_vless "vless://u@h:443?security=reality&type=ws" =
      some (.vless
        { name := "VLESS Node", server := "h", port := 443, uuid := "u",
          flow := none, udp := some true, tls := some true,
          skip_cert_verify := none, servername := none, network := some "ws",
          client_fingerprint := none,
          reality_opts := some { public_key := "", short_id := "" },
          ws_opts := some { path := "/", headers := some [("Host", "h")] },
          grpc_opts := none }) ∧
    (realityOptsOf (.vless
        { name := "VLESS Node", server := "h", port := 443, uuid := "u",
          flow := none, udp := some true, tls := some true,
          skip_cert_verify := none, servername := none, network := some "ws",
          client_fingerprint := none,
          reality_opts := some { public_key := "", short_id := "" },
          ws_opts := some { path := "/", headers := some [("Host", "h")] },
          grpc_opts := none })).isSome = true ∧
    (wsOptsOf (.vless
        { name := "VLESS Node", server := "h", port := 443, uuid := "u",
          flow := none, udp := some true, tls := some true,
          skip_cert_verify := none, servername := none, network := some "ws",
          client_fingerprint := none,
          reality_opts := some { public_key := "", short_id := "" },
          ws_opts := some { path := "/", headers := some [("Host", "h")] },
          grpc_opts := none })).isSome = true :=
  ⟨rfl, rfl, rfl⟩

/-- C4 amended: for every link accepted by the dispatch decoder, at most one
of the `ws-opts` and `grpc-opts` blocks is attached (they are gated by
mutually exclusive transport `network` values); `reality-opts`, gated by the
`security` parameter instead, can co-occur with either. -/
theorem C4_amended_ws_grpc_exclusive (link : String) (p : Proxy)
    (h : decodeLink link = some p) :
    ¬((wsOptsOf p).isSome ∧ (grpcOptsOf p).isSome) := by
  rintro ⟨hws, hg⟩
  unfold decodeLink at h
  split_ifs at h
  · obtain ⟨url, v, _, rfl, _, hw, hgr⟩ := parse_vless_inv link p h
    simp only [wsOptsOf] at hws
    simp only [grpcOptsOf] at hg
    have h1 := hw hws
    have h2 := hgr hg
    rw [h1] at h2
    simp at h2
  · obtain ⟨j, v, _, rfl, _⟩ := parse_vmess_inv link p h
    simp [grpcOptsOf] at hg
  · obtain ⟨url, v, _, rfl, _⟩ := parse_hy2_inv link p h
    simp [wsOptsOf] at hws
  · obtain ⟨url, v, _, rfl, _⟩ := parse_trojan_inv link p h
    simp [wsOptsOf] at hws
  · obtain ⟨v, rfl, _⟩ := parse_ss_inv link p h
    simp [wsOptsOf] at hws
  · obtain ⟨url, v, _, rfl, _⟩ := parse_tuic_inv link p h
    simp [wsOptsOf] at hws

/-- C4 witness: the amended exclusivity at a concrete accepted link. -/
theorem C4_amended_ws_grpc_exclusive_witness :
    ¬((wsOptsOf (.vless
        { name := "VLESS Node", server := "h", port := 443, uuid := "u",
          flow := none, udp := some true, tls := some true,
          skip_cert_verify := none, servername := none, network := some "ws",
          client_fingerprint := none,
          reality_opts := some { public_key := "", short_id := "" },
          ws_opts := some { path := "/", headers := some [("Host", "h")] },
          grpc_opts := none })).isSome ∧
      (grpcOptsOf (.vless
        { name := "VLESS Node", server := "h", port := 443, uuid := "u",
          flow := none, udp := some true, tls := some true,
          skip_cert_verify := none, servername := none, network := some "ws",
          client_fingerprint := none,
          reality_opts := some { public_key := "", short_id := "" },
          ws_opts := some { path := "/", headers := some [("Host", "h")] },
          grpc_opts := none })).isSome) :=
  C4_amended_ws_grpc_exclusive "vless://u@h:443?security=reality&type=ws" _ rfl


/-- C8 counterexample: an ss link ending in a bare `#` and a vless link with
an empty fragment are both accepted with an EMPTY name — no protocol default
is supplied. -/
theorem C8_counterexample :
    Option.map nameOf (parse_ss "ss://YWVzLTI1Ni1nY206cHdAMS4yLjMuNDo4Mzg4#") =
      some "" ∧
    Option.map nameOf (parse_vless "vless://u@h:443#") = some "" :=
  ⟨rfl, rfl⟩

/-- C8 amended: an accepted link yields an empty name only when the input
explicitly carries one (empty URI fragment, empty text after the first `#`
of an ss link, or an empty vmess `ps` field) — so the protocol-specific
default is supplied exactly when the name slot is absent; the WireGuard
decoder always names its proxy `"WireGuard"`. -/
theorem C8_amended_names :
    (∀ link p, decodeLink link = some p → nameOf p = "" →
      carriesEmptyName link) ∧
    (∀ content p, parse_wireguard content = some p → nameOf p = "WireGuard") := by
  constructor
  · intro link p h hname
    unfold decodeLink at h
    split_ifs at h
    · obtain ⟨url, v, hurl, rfl, hn, _, _⟩ := parse_vless_inv link p h
      simp only [nameOf] at hname
      rw [hname] at hn
      cases hf : url.fragment with
      | none => rw [hf] at hn; simp at hn
      | some f =>
        rw [hf, Option.getD_some] at hn
        exact Or.inl ⟨url, hurl, by simp [hf, ← hn]⟩
    · obtain ⟨j, v, hj, rfl, hn⟩ := parse_vmess_inv link p h
      simp only [nameOf] at hname
      rw [hname] at hn
      cases hf : (j.index "ps").asStr with
      | none => rw [hf] at hn; simp at hn
      | some f =>
        rw [hf, Option.getD_some] at hn
        exact Or.inr (Or.inr ⟨j, hj, by simp [hf, ← hn]⟩)
    · obtain ⟨url, v, hurl, rfl, hn⟩ := parse_hy2_inv link p h
      simp only [nameOf] at hname
      rw [hname] at hn
      cases hf : url.fragment with
      | none => rw [hf] at hn; simp at hn
      | some f =>
        rw [hf, Option.getD_some] at hn
        exact Or.inl ⟨url, hurl, by simp [hf, ← hn]⟩
    · obtain ⟨url, v, hurl, rfl, hn⟩ := parse_trojan_inv link p h
      simp only [nameOf] at hname
      rw [hname] at hn
      cases hf : url.fragment with
      | none => rw [hf] at hn; simp at hn
      | some f =>
        rw [hf, Option.getD_some] at hn
        exact Or.inl ⟨url, hurl, by simp [hf, ← hn]⟩
    · obtain ⟨v, rfl, hn⟩ := parse_ss_inv link p h
      simp only [nameOf] at hname
      rw [hname] at hn
      exact Or.inr (Or.inl hn.symm)
    · obtain ⟨url, v, hurl, rfl, hn⟩ := parse_tuic_inv link p h
      simp only [nameOf] at hname
      rw [hname] at hn
      cases hf : url.fragment with
      | none => rw [hf] at hn; simp at hn
      | some f =>
        rw [hf, Option.getD_some] at hn
        exact Or.inl ⟨url, hurl, by simp [hf, ← hn]⟩
  · intro content p h
    by_cases hc : (wgScan content).private_key = none ∨
        (wgScan content).public_key = none ∨
        (wgScan content).endpoint = none ∨ (wgScan content).ip = none
    · simp [parse_wireguard, hc] at h
    · simp [parse_wireguard, hc] at h
      rw [← h]
      rfl

/-- C8 witness: the amended statement at the concrete bare-`#` ss link. -/
theorem C8_amended_names_witness :
    carriesEmptyName "ss://YWVzLTI1Ni1nY206cHdAMS4yLjMuNDo4Mzg4#" :=
  (C8_amended_names).1 "ss://YWVzLTI1Ni1nY206cHdAMS4yLjMuNDo4Mzg4#" _ rfl rfl


/-- C2 counterexample: a template whose `proxy-groups` key holds a scalar has
no group named `PROXY`, yet merging appends NO new select group — the key is
left as the scalar and only the `proxies` key is normalised. -/
theorem C2_counterexample :
    mergeTemplate (.map [("proxy-groups", .str "x")]) [] ["n"] =
      .map [("proxy-groups", .str "x"), ("proxies", .seq [])] := rfl

/-- C2 amended: for a mapping template, if the `proxy-groups` sequence has a
(first) group named `PROXY`, merging rewrites exactly that group by appending
the new display names to its `proxies` sequence (installing the list when the
group lacks one) and leaves its other fields and all other groups unchanged;
if the key is missing, null, or a sequence with no such group, merging
appends exactly one new `select` group with the new names. A non-sequence
`proxy-groups` value is left untouched (no group is added). -/
theorem C2_amended_merge_groups (m : List (String × Yaml)) (proxies : List Proxy)
    (names : List String) :
    (∀ pre g post, mapGet m "proxy-groups" = some (.seq (pre ++ g :: post)) →
      (∀ g' ∈ pre, isTargetGroup g' = false) → isTargetGroup g = true →
      (mergeTemplate (.map m) proxies names).get "proxy-groups" =
        some (.seq (pre ++ updateGroup g names :: post))) ∧
    (∀ g qs, g.get "proxies" = some (.seq qs) →
      updateGroup g names = g.insertKey "proxies" (.seq (qs ++ names.map .str))) ∧
    (∀ g, g.get "proxies" = none →
      updateGroup g names = g.insertKey "proxies" (.seq (names.map .str))) ∧
    (∀ g k, k ≠ "proxies" → (updateGroup g names).get k = g.get k) ∧
    (∀ gs, mapGet m "proxy-groups" = some (.seq gs) →
      (∀ g ∈ gs, isTargetGroup g = false) →
      (mergeTemplate (.map m) proxies names).get "proxy-groups" =
        some (.seq (gs ++ [newProxyGroup names]))) ∧
    ((mapGet m "proxy-groups" = none ∨ mapGet m "proxy-groups" = some .null) →
      (mergeTemplate (.map m) proxies names).get "proxy-groups" =
        some (.seq [newProxyGroup names])) := by
  obtain ⟨m₂, hq, hp, hmt⟩ := mergeTemplate_groups m proxies names
  have hgq : mapGet m₂ "proxy-groups" = mapGet m "proxy-groups" :=
    hq "proxy-groups" (by decide)
  refine ⟨?_, ?_, ?_, ?_, ?_, ?_⟩
  · intro pre g post hg hpre htarget
    rw [hmt, groupsStep_seq m₂ names (pre ++ g :: post) (hgq.trans hg)]
    rw [updateFirstTarget_found pre g post names hpre htarget]
    simp [Yaml.get, mapGet_mapInsert]
  · intro g qs h
    simp [updateGroup, h]
  · intro g h
    simp [updateGroup, h]
  · intro g k hk
    exact updateGroup_get_ne g names k hk
  · intro gs hg hnone
    rw [hmt, groupsStep_seq m₂ names gs (hgq.trans hg)]
    rw [updateFirstTarget_notFound gs names hnone]
    simp [Yaml.get, mapGet_mapInsert]
  · intro hg
    rw [hmt, groupsStep_missing m₂ names (by rw [hgq]; exact hg)]
    simp [Yaml.get, mapGet_mapInsert]

/-- C2 witness: the found-group and no-group branches at concrete
templates. -/
theorem C2_amended_merge_groups_witness :
    (mergeTemplate (.map
        [("proxy-groups", .seq
           [Yaml.map [("name", Yaml.str "A")],
            Yaml.map [("name", Yaml.str "PROXY"), ("proxies", Yaml.seq [Yaml.str "x"])]]),
         ("rules", .str "r")]) [] ["n"]).get "proxy-groups" =
      some (.seq ([Yaml.map [("name", Yaml.str "A")]] ++
        updateGroup (Yaml.map
          [("name", Yaml.str "PROXY"), ("proxies", Yaml.seq [Yaml.str "x"])]) ["n"] :: [])) ∧
    (mergeTemplate (.map [("a", Yaml.null)]) [] ["n"]).get "proxy-groups" =
      some (.seq [newProxyGroup ["n"]]) :=
  ⟨(C2_amended_merge_groups
      [("proxy-groups", .seq
         [Yaml.map [("name", Yaml.str "A")],
          Yaml.map [("name", Yaml.str "PROXY"), ("proxies", Yaml.seq [Yaml.str "x"])]]),
       ("rules", .str "r")] [] ["n"]).1
      [Yaml.map [("name", Yaml.str "A")]]
      (Yaml.map [("name", Yaml.str "PROXY"), ("proxies", Yaml.seq [Yaml.str "x"])])
      [] rfl (by decide) rfl,
   (C2_amended_merge_groups [("a", Yaml.null)] [] ["n"]).2.2.2.2.2 (Or.inl rfl)⟩

/-- C9: merging into a mapping template whose `proxies` and `proxy-groups`
are sequences is append-only — every other top-level key keeps its value,
the pre-existing proxies survive as a prefix, and every pre-existing group
survives in position with all non-`proxies` fields intact and any existing
`proxies` sequence as a prefix. -/
theorem C9_merge_append_only (m : List (String × Yaml)) (proxies : List Proxy)
    (names : List String) (ps gs : List Yaml)
    (hp : mapGet m "proxies" = some (.seq ps))
    (hg : mapGet m "proxy-groups" = some (.seq gs)) :
    (∀ k, k ≠ "proxies" → k ≠ "proxy-groups" →
      (mergeTemplate (.map m) proxies names).get k = mapGet m k) ∧
    (mergeTemplate (.map m) proxies names).get "proxies" =
      some (.seq (ps ++ proxies.map proxyToYaml)) ∧
    (∃ gs', (mergeTemplate (.map m) proxies names).get "proxy-groups" =
        some (.seq gs') ∧ gs.length ≤ gs'.length ∧
      List.Forall₂ groupPreserved gs (gs'.take gs.length)) := by
  obtain ⟨m₂, hq, hpp, hmt⟩ := mergeTemplate_groups m proxies names
  have hgq : mapGet m₂ "proxy-groups" = mapGet m "proxy-groups" :=
    hq "proxy-groups" (by decide)
  rw [hmt, groupsStep_seq m₂ names gs (hgq.trans hg)]
  refine ⟨?_, ?_, ?_⟩
  · intro k hk1 hk2
    have hk2' : ¬ ("proxy-groups" : String) = k := fun hh => hk2 hh.symm
    simp only [Yaml.get, mapGet_mapInsert, if_neg hk2']
    exact hq k hk1
  · have : ¬ ("proxy-groups" : String) = "proxies" := by decide
    simp only [Yaml.get, mapGet_mapInsert, if_neg this]
    exact hpp ps hp
  · cases hut : updateFirstTarget gs names with
    | none =>
      refine ⟨gs ++ [newProxyGroup names], ?_, ?_, ?_⟩
      · simp [Yaml.get, mapGet_mapInsert]
      · simp
      · rw [List.take_left]
        exact List.forall₂_same.2 (fun g _ => groupPreserved_refl g)
    | some gs' =>
      obtain ⟨pre, g, post, hgs, hgs'⟩ := updateFirstTarget_some gs names gs' hut
      refine ⟨gs', ?_, ?_, ?_⟩
      · simp [Yaml.get, mapGet_mapInsert]
      · rw [hgs, hgs']
        simp
      · have hlen : gs'.length = gs.length := by rw [hgs, hgs']; simp
        have htake : List.take gs.length gs' = gs' := by
          rw [← hlen]; exact List.take_length gs'
        rw [htake, hgs, hgs']
        exact List.rel_append
          (List.forall₂_same.2 (fun x _ => groupPreserved_refl x))
          (List.Forall₂.cons (groupPreserved_updateGroup g names)
            (List.forall₂_same.2 (fun x _ => groupPreserved_refl x)))

/-- C9 witness: the frame properties at a concrete template. -/
theorem C9_merge_append_only_witness :
    (mergeTemplate (.map
        [("rules", .str "r"), ("proxies", .seq [Yaml.null]),
         ("proxy-groups", .seq
           [Yaml.map [("name", Yaml.str "G"), ("proxies", Yaml.seq [Yaml.str "q"])]])])
        [] ["n"]).get "rules" = some (.str "r") ∧
    (mergeTemplate (.map
        [("rules", .str "r"), ("proxies", .seq [Yaml.null]),
         ("proxy-groups", .seq
           [Yaml.map [("name", Yaml.str "G"), ("proxies", Yaml.seq [Yaml.str "q"])]])])
        [] ["n"]).get "proxies" =
      some (.seq ([Yaml.null] ++ List.map proxyToYaml [])) ∧
    (∃ gs', (mergeTemplate (.map
        [("rules", .str "r"), ("proxies", .seq [Yaml.null]),
         ("proxy-groups", .seq
           [Yaml.map [("name", Yaml.str "G"), ("proxies", Yaml.seq [Yaml.str "q"])]])])
        [] ["n"]).get "proxy-groups" = some (.seq gs') ∧
      ([Yaml.map [("name", Yaml.str "G"), ("proxies", Yaml.seq [Yaml.str "q"])]] : List Yaml).length ≤ gs'.length ∧
      List.Forall₂ groupPreserved
        [Yaml.map [("name", Yaml.str "G"), ("proxies", Yaml.seq [Yaml.str "q"])]]
        (gs'.take ([Yaml.map [("name", Yaml.str "G"), ("proxies", Yaml.seq [Yaml.str "q"])]] : List Yaml).length)) :=
  ⟨(C9_merge_append_only
      [("rules", .str "r"), ("proxies", .seq [Yaml.null]),
       ("proxy-groups", .seq
         [Yaml.map [("name", Yaml.str "G"), ("proxies", Yaml.seq [Yaml.str "q"])]])]
      [] ["n"] [Yaml.null]
      [Yaml.map [("name", Yaml.str "G"), ("proxies", Yaml.seq [Yaml.str "q"])]]
      rfl rfl).1 "rules" (by decide) (by decide),
   (C9_merge_append_only
      [("rules", .str "r"), ("proxies", .seq [Yaml.null]),
       ("proxy-groups", .seq
         [Yaml.map [("name", Yaml.str "G"), ("proxies", Yaml.seq [Yaml.str "q"])]])]
      [] ["n"] [Yaml.null]
      [Yaml.map [("name", Yaml.str "G"), ("proxies", Yaml.seq [Yaml.str "q"])]]
      rfl rfl).2.1,
   (C9_merge_append_only
      [("rules", .str "r"), ("proxies", .seq [Yaml.null]),
       ("proxy-groups", .seq
         [Yaml.map [("name", Yaml.str "G"), ("proxies", Yaml.seq [Yaml.str "q"])]])]
      [] ["n"] [Yaml.null]
      [Yaml.map [("name", Yaml.str "G"), ("proxies", Yaml.seq [Yaml.str "q"])]]
      rfl rfl).2.2⟩

end Txt2Sub
